import Mathlib

/-!
# Subscription tracker: billing-cycle engine and reminder scheduler

A shallow embedding of the state-changing core of `src/subs/src/App.jsx`
(`getDaysUntil`, `checkReminders`, `addSubscription`, `updateNextPaymentDate`,
`deleteSubscription`, `addNotification`) together with the parts of the
JavaScript runtime these functions call (`parseFloat`, `new Date(string)`,
the local-time setters and `toISOString`).

Conventions of the embedding.

* Time values are integers: milliseconds since the epoch, as in ECMAScript.
  An Invalid Date (time value `NaN`) is `none`.
* The local time zone `tza` gives the offset of local time from UTC in
  milliseconds (ECMAScript's `LocalTZA`) as a function of the time, so that
  zones with daylight saving are covered; `fixedZone` is a zone without.
* JavaScript numbers that are not time values are exact rationals together
  with `NaN` and the two infinities; rounding to binary64 is not modelled.
* A JavaScript exception is `none` in an `Option` result.
-/

namespace SubsTracker

/-! ## JavaScript numbers and `parseFloat` -/

/-- A JavaScript number, with exact rationals in place of binary64 values. -/
inductive JSNumber where
  | fin (q : ℚ)
  | nan
  | posInf
  | negInf
deriving DecidableEq

/-- Negation of a JavaScript number. -/
def JSNumber.neg : JSNumber → JSNumber
  | .fin q => .fin (-q)
  | .nan => .nan
  | .posInf => .negInf
  | .negInf => .posInf

/-- The number is not `NaN` and compares `>= 0`. -/
def JSNumber.isNonNeg : JSNumber → Bool
  | .fin q => decide (0 ≤ q)
  | .nan => false
  | .posInf => true
  | .negInf => false

/-- The value of `a + b`. There is no negative zero in the embedding. -/
def JSNumber.add : JSNumber → JSNumber → JSNumber
  | .fin a, .fin b => .fin (a + b)
  | .nan, _ => .nan
  | _, .nan => .nan
  | .posInf, .negInf => .nan
  | .negInf, .posInf => .nan
  | .posInf, _ => .posInf
  | _, .posInf => .posInf
  | .negInf, _ => .negInf
  | _, .negInf => .negInf

/-- An infinity of the sign of `q` times the sign given by `positive`; `NaN`
for `q = 0`. -/
def JSNumber.infTimes (positive : Bool) (q : ℚ) : JSNumber :=
  if q = 0 then .nan
  else if (0 < q) = positive then .posInf
  else .negInf

/-- The value of `a * b`. -/
def JSNumber.mul : JSNumber → JSNumber → JSNumber
  | .fin a, .fin b => .fin (a * b)
  | .nan, _ => .nan
  | _, .nan => .nan
  | .posInf, .fin b => JSNumber.infTimes true b
  | .negInf, .fin b => JSNumber.infTimes false b
  | .fin a, .posInf => JSNumber.infTimes true a
  | .fin a, .negInf => JSNumber.infTimes false a
  | .posInf, .posInf => .posInf
  | .negInf, .negInf => .posInf
  | .posInf, .negInf => .negInf
  | .negInf, .posInf => .negInf

/-- The value of `a / b`; a zero divisor counts as positive zero. -/
def JSNumber.div : JSNumber → JSNumber → JSNumber
  | .fin a, .fin b =>
    if b = 0 then (if a = 0 then .nan else if 0 < a then .posInf else .negInf)
    else .fin (a / b)
  | .nan, _ => .nan
  | _, .nan => .nan
  | .fin _, _ => .fin 0
  | .posInf, .fin b => if 0 ≤ b then .posInf else .negInf
  | .negInf, .fin b => if 0 ≤ b then .negInf else .posInf
  | _, _ => .nan

/-- The rational value of a finite number, and 0 for the others. -/
def JSNumber.toRat : JSNumber → ℚ
  | .fin q => q
  | _ => 0

/-- The function `parseFloat` applied to a number: the number is turned into its
string and read back, which returns the number. -/
def parseFloatOfNumber (x : JSNumber) : JSNumber := x

/-- The characters `parseFloat` skips at the start of its argument
(ECMAScript `WhiteSpace` and `LineTerminator`). -/
def isStrWhiteSpaceChar (c : Char) : Bool :=
  let n := c.toNat
  n = 9 || n = 10 || n = 11 || n = 12 || n = 13 || n = 32 || n = 160 ||
  n = 5760 || (8192 ≤ n && n ≤ 8202) || n = 8232 || n = 8233 || n = 8239 ||
  n = 8287 || n = 12288 || n = 65279

/-- An ASCII decimal digit. -/
def isDecimalDigit (c : Char) : Bool := 48 ≤ c.toNat && c.toNat ≤ 57

/-- The value of a run of decimal digits, read as a base-ten numeral. -/
def digitsValue (ds : List Char) : Nat :=
  ds.foldl (fun acc c => 10 * acc + (c.toNat - 48)) 0

/-- The `ExponentPart` at the head of the input, when there is one: an `e` or
`E`, an optional sign and at least one digit. Without one the exponent is 0. -/
def exponentPart (cs : List Char) : Int :=
  match cs with
  | c :: rest =>
    if c = 'e' ∨ c = 'E' then
      match rest with
      | '+' :: ds =>
        let run := ds.takeWhile isDecimalDigit
        if run.isEmpty then 0 else (digitsValue run : Int)
      | '-' :: ds =>
        let run := ds.takeWhile isDecimalDigit
        if run.isEmpty then 0 else -(digitsValue run : Int)
      | ds =>
        let run := ds.takeWhile isDecimalDigit
        if run.isEmpty then 0 else (digitsValue run : Int)
    else 0
  | [] => 0

/-- Ten to an integer power, as a rational. -/
def pow10 (e : Int) : ℚ :=
  match e with
  | Int.ofNat n => (10 : ℚ) ^ n
  | Int.negSucc n => 1 / (10 : ℚ) ^ (n + 1)

/-- The value of the longest head of the input that is a
`StrUnsignedDecimalLiteral`; `nan` when no head is one. -/
def strUnsignedDecimalLiteral (cs : List Char) : JSNumber :=
  if "Infinity".toList.isPrefixOf cs then .posInf
  else
    let ip := cs.takeWhile isDecimalDigit
    let afterInt := cs.dropWhile isDecimalDigit
    match afterInt with
    | '.' :: afterDot =>
      let fp := afterDot.takeWhile isDecimalDigit
      let afterFrac := afterDot.dropWhile isDecimalDigit
      if ip.isEmpty && fp.isEmpty then .nan
      else
        .fin (((digitsValue ip : ℚ) + (digitsValue fp : ℚ) / (10 : ℚ) ^ fp.length)
          * pow10 (exponentPart afterFrac))
    | _ =>
      if ip.isEmpty then .nan
      else .fin ((digitsValue ip : ℚ) * pow10 (exponentPart afterInt))

/-- The global function `parseFloat` applied to a string: leading white space is
dropped, then the longest head that is a `StrDecimalLiteral` is evaluated. -/
def parseFloat (s : String) : JSNumber :=
  match s.toList.dropWhile isStrWhiteSpaceChar with
  | '+' :: rest => strUnsignedDecimalLiteral rest
  | '-' :: rest => (strUnsignedDecimalLiteral rest).neg
  | cs => strUnsignedDecimalLiteral cs

/-! ## Calendar arithmetic of ECMAScript time values -/

/-- Milliseconds in a day. -/
def msPerDay : Int := 86400000

/-- The day number of a time value: `floor(t / msPerDay)`. -/
def Day (t : Int) : Int := t / msPerDay

/-- The milliseconds of a time value after the start of its day. -/
def TimeWithinDay (t : Int) : Int := t % msPerDay

/-- The day number (days since 1970-01-01) of the proleptic Gregorian date
with year `y`, month `m` in 1..12 and day of month `d`. -/
def daysFromCivil (y m d : Int) : Int :=
  let y1 := if m ≤ 2 then y - 1 else y
  let era := y1 / 400
  let yoe := y1 % 400
  let mp := if m > 2 then m - 3 else m + 9
  let doy := (153 * mp + 2) / 5 + d - 1
  let doe := yoe * 365 + yoe / 4 - yoe / 100 + doy
  era * 146097 + doe - 719468

/-- The proleptic Gregorian date (year, month in 1..12, day of month) of a day
number. -/
def civilFromDays (z : Int) : Int × Int × Int :=
  let z1 := z + 719468
  let era := z1 / 146097
  let doe := z1 % 146097
  let yoe := (doe - doe / 1460 + doe / 36524 - doe / 146096) / 365
  let doy := doe - (365 * yoe + yoe / 4 - yoe / 100)
  let mp := (5 * doy + 2) / 153
  let d := doy - (153 * mp + 2) / 5 + 1
  let m := if mp < 10 then mp + 3 else mp - 9
  let y := yoe + era * 400
  (if m ≤ 2 then y + 1 else y, m, d)

/-- The year of a time value. -/
def YearFromTime (t : Int) : Int := (civilFromDays (Day t)).1

/-- The month of a time value, 0 for January to 11 for December. -/
def MonthFromTime (t : Int) : Int := (civilFromDays (Day t)).2.1 - 1

/-- The day of the month of a time value, from 1. -/
def DateFromTime (t : Int) : Int := (civilFromDays (Day t)).2.2

/-- The day number of the given day of the given month, where the month may
lie outside 0..11 and the day outside the month: both carry over. -/
def MakeDay (year month date : Int) : Int :=
  let ym := year + month / 12
  let mn := month % 12
  daysFromCivil ym (mn + 1) 1 + date - 1

/-- The time value of a day number and a time within the day. -/
def MakeDate (day time : Int) : Int := day * msPerDay + time

/-- A time value outside the range of `Date` becomes `NaN`. -/
def TimeClip (t : Int) : Option Int :=
  if t.natAbs ≤ 8640000000000000 then some t else none

/-- A local time zone: the offset of local time from UTC, in milliseconds, in
force at a UTC time value (ECMAScript's `LocalTZA(t, true)`) and in force at a
local time value (`LocalTZA(t, false)`). With daylight saving both depend on
the time. -/
structure TimeZone where
  offsetAtUTC : Int → Int
  offsetAtLocal : Int → Int

/-- The zone whose offset from UTC is the same at all times. -/
def fixedZone (offset : Int) : TimeZone :=
  { offsetAtUTC := fun _ => offset, offsetAtLocal := fun _ => offset }

/-- The zone of UTC itself. -/
def utc : TimeZone := fixedZone 0

/-- Local time of a UTC time value in the zone `tza`. -/
def LocalTime (tza : TimeZone) (t : Int) : Int := t + tza.offsetAtUTC t

/-- The UTC time value of a local time in the zone `tza`. -/
def UTC (tza : TimeZone) (t : Int) : Int := t - tza.offsetAtLocal t

/-- Whether the year is a leap year. -/
def isLeapYear (y : Int) : Bool := y % 4 = 0 && (y % 100 ≠ 0 || y % 400 = 0)

/-- The number of days of month `m` (1..12) of year `y`. -/
def daysInMonth (y m : Int) : Int :=
  if m = 2 then (if isLeapYear y then 29 else 28)
  else if m = 4 ∨ m = 6 ∨ m = 9 ∨ m = 11 then 30
  else 31

/-! ## `new Date(string)` and `toISOString` -/

/-- The value of a run of characters when all of them are decimal digits. -/
def digitsOnly (cs : List Char) : Option Nat :=
  if cs.all isDecimalDigit then some (digitsValue cs) else none

/-- The year at the head of a date string: four digits, or a sign and six
digits (the expanded years of ECMAScript, where `-000000` is not a year). -/
def parseYear (cs : List Char) : Option (Int × List Char) :=
  match cs with
  | '+' :: rest =>
    if rest.length < 6 then none
    else (digitsOnly (rest.take 6)).map (fun y => ((y : Int), rest.drop 6))
  | '-' :: rest =>
    if rest.length < 6 then none
    else (digitsOnly (rest.take 6)).bind
      (fun y => if y = 0 then none else some (-(y : Int), rest.drop 6))
  | _ =>
    if cs.length < 4 then none
    else (digitsOnly (cs.take 4)).map (fun y => ((y : Int), cs.drop 4))

/-- The calendar date written by a date-only string of the ECMAScript Date Time
String Format: `YYYY`, `YYYY-MM` or `YYYY-MM-DD`, with a month in 01..12 and a
day that exists in that month. Every other string is read as no date: what
`new Date` makes of strings outside the format is left to the implementation,
and the embedding takes them to give an Invalid Date. -/
def parseDateOnly (s : String) : Option (Int × Int × Int) :=
  match parseYear s.toList with
  | none => none
  | some (y, rest) =>
    match rest with
    | [] => some (y, 1, 1)
    | ['-', m1, m2] =>
      match digitsOnly [m1, m2] with
      | some m => if 1 ≤ m ∧ m ≤ 12 then some (y, (m : Int), 1) else none
      | none => none
    | ['-', m1, m2, '-', d1, d2] =>
      match digitsOnly [m1, m2], digitsOnly [d1, d2] with
      | some m, some d =>
        if 1 ≤ m ∧ m ≤ 12 ∧ 1 ≤ d ∧ (d : Int) ≤ daysInMonth y m
        then some (y, (m : Int), (d : Int)) else none
      | _, _ => none
    | _ => none

/-- The time value of `new Date(dateString)`: a date-only string is midnight
UTC of its date; `none` is the Invalid Date. -/
def dateFromString (s : String) : Option Int :=
  match parseDateOnly s with
  | none => none
  | some (y, m, d) => TimeClip (MakeDate (MakeDay y (m - 1) d) 0)

/-- A natural number in decimal, filled with zeros on the left up to `width`
characters. -/
def padZeros (width n : Nat) : String :=
  let digits := toString n
  String.mk (List.replicate (width - digits.length) '0') ++ digits

/-- The date part of `toISOString()` for a valid time value, which is what
`toISOString().split('T')[0]` returns: the UTC year (four digits, or a sign and
six digits outside 0..9999), month and day. -/
def toISODate (t : Int) : String :=
  let y := YearFromTime t
  let year :=
    if 0 ≤ y ∧ y ≤ 9999 then padZeros 4 y.toNat
    else (if y < 0 then "-" else "+") ++ padZeros 6 y.natAbs
  year ++ "-" ++ padZeros 2 (MonthFromTime t + 1).toNat ++ "-" ++
    padZeros 2 (DateFromTime t).toNat

/-! ## The local-time methods of `Date` used by the program -/

/-- The result of `getMonth()` on a valid date. -/
def getMonth (tza : TimeZone) (t : Int) : Int := MonthFromTime (LocalTime tza t)

/-- The result of `getFullYear()` on a valid date. -/
def getFullYear (tza : TimeZone) (t : Int) : Int := YearFromTime (LocalTime tza t)

/-- The result of `getDate()` on a valid date. -/
def getDate (tza : TimeZone) (t : Int) : Int := DateFromTime (LocalTime tza t)

/-- The time value after `setMonth(month)` on a valid date. -/
def setMonth (tza : TimeZone) (t month : Int) : Option Int :=
  let lt := LocalTime tza t
  TimeClip (UTC tza (MakeDate (MakeDay (YearFromTime lt) month (DateFromTime lt))
    (TimeWithinDay lt)))

/-- The time value after `setFullYear(year)` on a valid date. -/
def setFullYear (tza : TimeZone) (t year : Int) : Option Int :=
  let lt := LocalTime tza t
  TimeClip (UTC tza (MakeDate (MakeDay year (MonthFromTime lt) (DateFromTime lt))
    (TimeWithinDay lt)))

/-- The time value after `setDate(date)` on a valid date. -/
def setDate (tza : TimeZone) (t date : Int) : Option Int :=
  let lt := LocalTime tza t
  TimeClip (UTC tza (MakeDate (MakeDay (YearFromTime lt) (MonthFromTime lt) date)
    (TimeWithinDay lt)))

/-- The time value after `setHours(0, 0, 0, 0)` on a valid date: local midnight
of its local day. -/
def setHoursZero (tza : TimeZone) (t : Int) : Option Int :=
  TimeClip (UTC tza (MakeDate (Day (LocalTime tza t)) 0))

/-- The value of `Math.ceil(a / b)` for integers `a` and `b > 0`. -/
def ceilDiv (a b : Int) : Int := -((-a) / b)

/-- The function `getDaysUntil` (lines 105-111) at clock value `now`: the
ceiling of the days from local midnight of today to the parsed target date;
`none` is `NaN`. -/
def getDaysUntil (tza : TimeZone) (now : Int) (dateString : String) : Option Int :=
  match setHoursZero tza now, dateFromString dateString with
  | some today, some targetDate =>
    let diffTime := targetDate - today
    some (ceilDiv diffTime (1000 * 60 * 60 * 24))
  | _, _ => none

/-- The body of the `map` callback of `updateNextPaymentDate` for a matching
subscription (lines 161-173): the next payment date after one billing cycle.
On an Invalid Date every setter leaves the date invalid and `toISOString`
throws a `RangeError`, which is `none`. -/
def advance (tza : TimeZone) (nextPayment cycle : String) : Option String :=
  match dateFromString nextPayment with
  | none => none
  | some t =>
    let nextDate : Option Int :=
      if cycle = "monthly" then setMonth tza t (getMonth tza t + 1)
      else if cycle = "yearly" then setFullYear tza t (getFullYear tza t + 1)
      else if cycle = "weekly" then setDate tza t (getDate tza t + 7)
      else if cycle = "quarterly" then setMonth tza t (getMonth tza t + 3)
      else some t
    nextDate.map toISODate

/-! ## Data model -/

/-- A subscription as the program stores it. -/
structure Subscription where
  id : Int
  name : String
  price : JSNumber
  cycle : String
  nextPayment : String
  color : String
  icon : String
deriving DecidableEq

/-- The form state `newSubscription`: every field is the text of an input. -/
structure Draft where
  name : String
  price : String
  cycle : String
  nextPayment : String
  color : String
  icon : String
deriving DecidableEq

/-- A record of the state `reminders`: a reminder was raised for this
subscription id and due date. -/
structure Reminder where
  id : Int
  subscriptionId : Int
  date : String
deriving DecidableEq

/-- An entry of the state `notifications`. Its `id` (`Date.now()`, plus
`Math.random()` for a reminder) is a display key that no function of the
embedding reads, and is left out. -/
structure Notification where
  message : String
  type : String
  subscription : Option Subscription
deriving DecidableEq

/-- The component state that the embedded functions read and write. -/
structure AppState where
  subscriptions : List Subscription
  newSubscription : Draft
  isAddingNew : Bool
  reminders : List Reminder
  notifications : List Notification
  showDeleteConfirm : Option Int
deriving DecidableEq

/-- The initial value of `newSubscription`, to which a successful add resets
the form. -/
def emptyDraft : Draft :=
  { name := "", price := "", cycle := "monthly", nextPayment := "",
    color := "bg-blue-500", icon := "📱" }

/-! ## Operations -/

/-- The function `addNotification` (lines 186-198): the new notification goes
to the front. Its removal by the five-second timer is not modelled. -/
def addNotification (message type : String) (st : AppState) : AppState :=
  { st with notifications :=
      { message := message, type := type, subscription := none } :: st.notifications }

/-- The function `addSubscription` (lines 140-156) at clock value `now`. -/
def addSubscription (now : Int) (st : AppState) : AppState :=
  if st.newSubscription.name = "" ∨ st.newSubscription.price = "" ∨
      st.newSubscription.nextPayment = "" then
    addNotification "Please fill in all required fields" "error" st
  else
    let newSub : Subscription :=
      { id := now
        name := st.newSubscription.name
        price := parseFloat st.newSubscription.price
        cycle := st.newSubscription.cycle
        nextPayment := st.newSubscription.nextPayment
        color := st.newSubscription.color
        icon := st.newSubscription.icon }
    addNotification ("Added " ++ newSub.name ++ " subscription") "success"
      { st with
        subscriptions := st.subscriptions ++ [newSub]
        newSubscription := emptyDraft
        isAddingNew := false }

/-- The `map` callback of `updateNextPaymentDate` (lines 159-176); `none` when
`toISOString` throws. -/
def advanceIfId (tza : TimeZone) (id : Int) (sub : Subscription) : Option Subscription :=
  if sub.id = id then
    (advance tza sub.nextPayment sub.cycle).map (fun d => { sub with nextPayment := d })
  else some sub

/-- The call `subscriptions.map(...)` of `updateNextPaymentDate`: the callback
runs on every element in order, and an exception in one call ends the whole. -/
def mapAdvance (tza : TimeZone) (id : Int) : List Subscription → Option (List Subscription)
  | [] => some []
  | sub :: rest =>
    match advanceIfId tza id sub with
    | none => none
    | some sub1 =>
      match mapAdvance tza id rest with
      | none => none
      | some rest1 => some (sub1 :: rest1)

/-- The function `updateNextPaymentDate` (lines 158-177); `none` when it throws,
in which case `setSubscriptions` is not reached. -/
def updateNextPaymentDate (tza : TimeZone) (id : Int) (st : AppState) : Option AppState :=
  (mapAdvance tza id st.subscriptions).map (fun subs => { st with subscriptions := subs })

/-- The function `deleteSubscription` (lines 179-184). -/
def deleteSubscription (id : Int) (st : AppState) : AppState :=
  addNotification "Subscription deleted" "info"
    { st with
      subscriptions := st.subscriptions.filter (fun sub => sub.id ≠ id)
      reminders := st.reminders.filter (fun reminder => reminder.subscriptionId ≠ id)
      showDeleteConfirm := none }

/-- The callback of the `reduce` in `calculateMonthlyTotal` (lines 121-127). -/
def monthlyStep (acc : JSNumber) (sub : Subscription) : JSNumber :=
  let monthlyPrice := parseFloatOfNumber sub.price
  let monthlyPrice :=
    if sub.cycle = "yearly" then monthlyPrice.div (.fin 12)
    else if sub.cycle = "weekly" then monthlyPrice.mul (.fin 4.33)
    else if sub.cycle = "quarterly" then monthlyPrice.div (.fin 3)
    else monthlyPrice
  acc.add monthlyPrice

/-- The function `calculateMonthlyTotal` (lines 120-128). -/
def calculateMonthlyTotal (st : AppState) : JSNumber :=
  st.subscriptions.foldl monthlyStep (.fin 0)

/-- The callback of the `reduce` in `calculateAnnualTotal` (lines 131-137). -/
def annualStep (acc : JSNumber) (sub : Subscription) : JSNumber :=
  let annualPrice := parseFloatOfNumber sub.price
  let annualPrice :=
    if sub.cycle = "monthly" then annualPrice.mul (.fin 12)
    else if sub.cycle = "weekly" then annualPrice.mul (.fin 52)
    else if sub.cycle = "quarterly" then annualPrice.mul (.fin 4)
    else annualPrice
  acc.add annualPrice

/-- The function `calculateAnnualTotal` (lines 130-138). -/
def calculateAnnualTotal (st : AppState) : JSNumber :=
  st.subscriptions.foldl annualStep (.fin 0)

/-- The filter of `checkReminders` (lines 45-48): the days until the payment
are at most 3 and at least 0; a comparison with `NaN` is false. -/
def isUpcoming (tza : TimeZone) (now : Int) (sub : Subscription) : Bool :=
  match getDaysUntil tza now sub.nextPayment with
  | some daysUntil => decide (daysUntil ≤ 3) && decide (daysUntil ≥ 0)
  | none => false

/-- The text of a number in a template literal or a string concatenation. -/
def numberToString : Option Int → String
  | some n => toString n
  | none => "NaN"

/-- The notification built at lines 53-59. -/
def newNotification (tza : TimeZone) (now : Int) (sub : Subscription) : Notification :=
  let daysUntil := getDaysUntil tza now sub.nextPayment
  { message := sub.name ++ " payment due in " ++
      (if daysUntil = some 0 then "today" else numberToString daysUntil ++ " days")
    type := "warning"
    subscription := some sub }

/-- The body of the `forEach` of `checkReminders` for one subscription (lines
51-74). The look-up reads `reminders`, the value the effect was created with;
the two state updates apply to the state as it is by then. The operating-system
notification is outside the state and not modelled. -/
def remindOne (tza : TimeZone) (now : Int) (reminders : List Reminder) (st : AppState)
    (sub : Subscription) : AppState :=
  match reminders.find? (fun r => r.subscriptionId = sub.id ∧ r.date = sub.nextPayment) with
  | some _ => st
  | none =>
    { st with
      notifications := newNotification tza now sub :: st.notifications
      reminders := st.reminders ++
        [{ id := now, subscriptionId := sub.id, date := sub.nextPayment }] }

/-- The function `checkReminders` (lines 43-76), with one clock value `now`
for the whole run. The constant `today` of line 44 is never read. -/
def checkReminders (tza : TimeZone) (now : Int) (st : AppState) : AppState :=
  let upcoming := st.subscriptions.filter (isUpcoming tza now)
  upcoming.foldl (remindOne tza now st.reminders) st

/-- One run of `checkReminders` as a function of the subscriptions, the ledger
and the clock: the reminder events in the order they were emitted, and the
ledger afterwards. -/
def sweep (tza : TimeZone) (now : Int) (subs : List Subscription) (ledger : List Reminder) :
    List Notification × List Reminder :=
  let st := checkReminders tza now
    { subscriptions := subs, newSubscription := emptyDraft, isAddingNew := false,
      reminders := ledger, notifications := [], showDeleteConfirm := none }
  (st.notifications.reverse, st.reminders)

/-- The user and timer events that change subscriptions or the ledger. -/
inductive Action where
  | add (now : Int)
  | markPaid (id : Int)
  | delete (id : Int)
  | sweep (now : Int)

/-- The state after an event. A `markPaid` that throws leaves the state as it
was. -/
def step (tza : TimeZone) (a : Action) (st : AppState) : AppState :=
  match a with
  | .add now => addSubscription now st
  | .markPaid id => (updateNextPaymentDate tza id st).getD st
  | .delete id => deleteSubscription id st
  | .sweep now => checkReminders tza now st

/-! ## Vocabulary of the statements -/

/-- The ledger holds a record for this subscription id and this due date. -/
def hasFired (ledger : List Reminder) (sub : Subscription) : Prop :=
  ∃ r ∈ ledger, r.subscriptionId = sub.id ∧ r.date = sub.nextPayment

/-- The days until the payment are a number `d` with `0 ≤ d ≤ 3`. -/
def inWindow (tza : TimeZone) (now : Int) (sub : Subscription) : Prop :=
  ∃ d : Int, getDaysUntil tza now sub.nextPayment = some d ∧ 0 ≤ d ∧ d ≤ 3

instance (ledger : List Reminder) (sub : Subscription) : Decidable (hasFired ledger sub) := by
  unfold hasFired
  infer_instance

instance (tza : TimeZone) (now : Int) (sub : Subscription) : Decidable (inWindow tza now sub) :=
  match h : getDaysUntil tza now sub.nextPayment with
  | some d =>
    if hd : 0 ≤ d ∧ d ≤ 3 then isTrue ⟨d, h, hd.1, hd.2⟩
    else isFalse (fun ⟨_, h1, h0, h3⟩ => hd (Option.some.inj (h.symm.trans h1) ▸ ⟨h0, h3⟩))
  | none => isFalse (fun ⟨_, h1, _⟩ => Option.noConfusion (h.symm.trans h1))

/-- The look-up of `remindOne` finds no record. -/
def notFired (ledger : List Reminder) (sub : Subscription) : Bool :=
  (ledger.find? (fun r => r.subscriptionId = sub.id ∧ r.date = sub.nextPayment)).isNone

/-- The ledger record appended at lines 69-73. -/
def newReminder (now : Int) (sub : Subscription) : Reminder :=
  { id := now, subscriptionId := sub.id, date := sub.nextPayment }

/-- The subscriptions a run reminds of, in the order of the run. -/
def due (tza : TimeZone) (now : Int) (subs : List Subscription) (ledger : List Reminder) :
    List Subscription :=
  (subs.filter (isUpcoming tza now)).filter (notFired ledger)

/-- The ledger key of a subscription. -/
def subKey (sub : Subscription) : Int × String := (sub.id, sub.nextPayment)

/-- The ledger key of a record. -/
def reminderKey (r : Reminder) : Int × String := (r.subscriptionId, r.date)

/-- The ledger key a reminder event is about. -/
def eventKey (e : Notification) : Option (Int × String) := e.subscription.map subKey

/-- No ledger record refers to a subscription id that is not in the collection. -/
def NoDangling (st : AppState) : Prop :=
  ∀ r ∈ st.reminders, ∃ sub ∈ st.subscriptions, sub.id = r.subscriptionId

instance (st : AppState) : Decidable (NoDangling st) := by
  unfold NoDangling
  infer_instance

/-- The guard of `addSubscription` (line 141): a required field is empty. -/
def missingField (d : Draft) : Prop :=
  d.name = "" ∨ d.price = "" ∨ d.nextPayment = ""

instance (d : Draft) : Decidable (missingField d) := by
  unfold missingField
  infer_instance

/-- The validation the specification asks of a draft: a non-empty name, a price
that parses as a non-negative number, and a `nextPayment` that is a date. -/
def specValidDraft (d : Draft) : Prop :=
  d.name ≠ "" ∧ (parseFloat d.price).isNonNeg = true ∧
    (dateFromString d.nextPayment).isSome = true

instance (d : Draft) : Decidable (specValidDraft d) := by
  unfold specValidDraft
  infer_instance

/-- The subscription `newSub` that `addSubscription` builds from the form
(lines 146-150). -/
def draftSubscription (now : Int) (d : Draft) : Subscription :=
  { id := now, name := d.name, price := parseFloat d.price, cycle := d.cycle,
    nextPayment := d.nextPayment, color := d.color, icon := d.icon }

/-- The date part of the ISO string of a calendar date: the rendering that
`toISODate` applies to the UTC date of a time value. -/
def isoDate (y m d : Int) : String :=
  (if 0 ≤ y ∧ y ≤ 9999 then padZeros 4 y.toNat
    else (if y < 0 then "-" else "+") ++ padZeros 6 y.natAbs)
    ++ "-" ++ padZeros 2 m.toNat ++ "-" ++ padZeros 2 d.toNat

/-- The month after month `m` (1..12) of year `y`. -/
def nextMonth (y m : Int) : Int × Int := if m = 12 then (y + 1, 1) else (y, m + 1)

/-- The billing cycles of the specification. -/
inductive Cycle where
  | weekly
  | monthly
  | quarterly
  | yearly
deriving DecidableEq

/-- The billing cycle a `cycle` string names, when it names one. -/
def Cycle.ofString (s : String) : Option Cycle :=
  if s = "weekly" then some .weekly
  else if s = "monthly" then some .monthly
  else if s = "quarterly" then some .quarterly
  else if s = "yearly" then some .yearly
  else none

/-- The monthly equivalent of the specification: the price for monthly,
`price/12` for yearly, `price*4.33` for weekly, `price/3` for quarterly. -/
def specMonthlyEquivalent (price : ℚ) : Cycle → ℚ
  | .monthly => price
  | .yearly => price / 12
  | .weekly => price * 4.33
  | .quarterly => price / 3

/-- The annual equivalent of the specification: `price*12` for monthly, the
price for yearly, `price*52` for weekly, `price*4` for quarterly. -/
def specAnnualEquivalent (price : ℚ) : Cycle → ℚ
  | .monthly => price * 12
  | .yearly => price
  | .weekly => price * 52
  | .quarterly => price * 4

/-- The monthly equivalent of a subscription with a finite price and a cycle of
the specification; 0 for any other subscription. -/
def monthlyEquivalentOf (sub : Subscription) : ℚ :=
  match Cycle.ofString sub.cycle with
  | some c => specMonthlyEquivalent sub.price.toRat c
  | none => 0

/-- The annual equivalent of a subscription with a finite price and a cycle of
the specification; 0 for any other subscription. -/
def annualEquivalentOf (sub : Subscription) : ℚ :=
  match Cycle.ofString sub.cycle with
  | some c => specAnnualEquivalent sub.price.toRat c
  | none => 0

/-- The subscription has a finite price and one of the four cycles. -/
def hasPriceAndCycle (sub : Subscription) : Prop :=
  (∃ q : ℚ, sub.price = .fin q) ∧ (Cycle.ofString sub.cycle).isSome = true

/-! ## Sample data for the concrete instances -/

/-- The clock value of 2025-05-12T10:00:00Z. -/
def sampleNow : Int := 1747044000000

/-- US Eastern time (America/New_York) around its daylight saving period of
2025: four hours behind UTC from 2025-03-09T07:00Z (03:00 local) until
2025-11-02T06:00Z (02:00 local), five hours behind before and after. These are
the zone's offsets for the time values from 2024-11-03 to 2026-03-08, where the
instances below use it. -/
def easternTime2025 : TimeZone :=
  { offsetAtUTC := fun t =>
      if 1741503600000 ≤ t ∧ t < 1762063200000 then -14400000 else -18000000
    offsetAtLocal := fun t =>
      if 1741489200000 ≤ t ∧ t < 1762048800000 then -14400000 else -18000000 }

/-- A subscription due on 2025-05-14, two days after `sampleNow`. -/
def netflix : Subscription :=
  { id := 1, name := "Netflix", price := .fin 15, cycle := "monthly",
    nextPayment := "2025-05-14", color := "bg-red-500", icon := "N" }

/-- A subscription due on 2025-05-20, outside the window at `sampleNow`. -/
def spotify : Subscription :=
  { id := 2, name := "Spotify", price := .fin 10, cycle := "monthly",
    nextPayment := "2025-05-20", color := "bg-green-500", icon := "S" }

/-- The portfolio of the specification: 12 a month and 120 a year. -/
def samplePortfolio : List Subscription :=
  [{ netflix with price := .fin 12, cycle := "monthly" },
   { spotify with price := .fin 120, cycle := "yearly" }]

/-- A filled form with the price 30. -/
def gymDraft : Draft :=
  { name := "Gym", price := "30", cycle := "monthly", nextPayment := "2025-06-01",
    color := "bg-blue-500", icon := "G" }

/-- A state around a list of subscriptions and a ledger, with an empty form and
no notifications. -/
def stateOf (subs : List Subscription) (ledger : List Reminder) : AppState :=
  { subscriptions := subs, newSubscription := emptyDraft, isAddingNew := false,
    reminders := ledger, notifications := [], showDeleteConfirm := none }

/-! ## Lemmas on `checkReminders` -/

theorem isUpcoming_iff (tza : TimeZone) (now : Int) (sub : Subscription) :
    isUpcoming tza now sub = true ↔ inWindow tza now sub := by
  unfold isUpcoming inWindow
  cases h : getDaysUntil tza now sub.nextPayment with
  | none => simp
  | some d =>
    simp only [Bool.and_eq_true, decide_eq_true_eq, Option.some.injEq, exists_eq_left']
    constructor
    · rintro ⟨h3, h0⟩
      exact ⟨h0, h3⟩
    · rintro ⟨h0, h3⟩
      exact ⟨h3, h0⟩

theorem notFired_iff (ledger : List Reminder) (sub : Subscription) :
    notFired ledger sub = true ↔ ¬ hasFired ledger sub := by
  unfold notFired hasFired
  rw [Option.isNone_iff_eq_none, List.find?_eq_none]
  simp

theorem remindOne_of_notFired (tza : TimeZone) (now : Int) (ledger : List Reminder) (st : AppState)
    (sub : Subscription) (h : notFired ledger sub = true) :
    remindOne tza now ledger st sub =
      { st with
        notifications := newNotification tza now sub :: st.notifications
        reminders := st.reminders ++ [newReminder now sub] } := by
  unfold notFired at h
  rw [Option.isNone_iff_eq_none] at h
  unfold remindOne
  rw [h]
  rfl

theorem remindOne_of_fired (tza : TimeZone) (now : Int) (ledger : List Reminder) (st : AppState)
    (sub : Subscription) (h : notFired ledger sub = false) :
    remindOne tza now ledger st sub = st := by
  unfold notFired at h
  cases hf : ledger.find? (fun r => r.subscriptionId = sub.id ∧ r.date = sub.nextPayment) with
  | none =>
    rw [hf] at h
    exact absurd h (by simp)
  | some r =>
    unfold remindOne
    rw [hf]

/-- The loop of `checkReminders` over any list: the notifications gain the new
events at the front, latest first; the ledger gains the new records at the end;
the rest of the state stays. -/
theorem foldl_remindOne (tza : TimeZone) (now : Int) (ledger : List Reminder) :
    ∀ (l : List Subscription) (st : AppState),
      l.foldl (remindOne tza now ledger) st =
        { st with
          notifications :=
            ((l.filter (notFired ledger)).map (newNotification tza now)).reverse
              ++ st.notifications
          reminders := st.reminders ++ (l.filter (notFired ledger)).map (newReminder now) }
  | [], st => by simp
  | sub :: rest, st => by
    rw [List.foldl_cons]
    cases h : notFired ledger sub with
    | true =>
      rw [remindOne_of_notFired tza now ledger st sub h, foldl_remindOne tza now ledger rest]
      simp [List.filter_cons, h]
    | false =>
      rw [remindOne_of_fired tza now ledger st sub h, foldl_remindOne tza now ledger rest]
      simp [List.filter_cons, h]

theorem checkReminders_eq (tza : TimeZone) (now : Int) (st : AppState) :
    checkReminders tza now st =
      { st with
        notifications :=
          ((due tza now st.subscriptions st.reminders).map (newNotification tza now)).reverse
            ++ st.notifications
        reminders :=
          st.reminders ++ (due tza now st.subscriptions st.reminders).map (newReminder now) } := by
  unfold checkReminders due
  exact foldl_remindOne tza now st.reminders _ st

theorem sweep_events (tza : TimeZone) (now : Int) (subs : List Subscription) (ledger : List Reminder) :
    (sweep tza now subs ledger).1 = (due tza now subs ledger).map (newNotification tza now) := by
  simp [sweep, checkReminders_eq]

theorem sweep_ledger (tza : TimeZone) (now : Int) (subs : List Subscription) (ledger : List Reminder) :
    (sweep tza now subs ledger).2 = ledger ++ (due tza now subs ledger).map (newReminder now) := by
  simp [sweep, checkReminders_eq]

theorem mem_due_iff (tza : TimeZone) (now : Int) (subs : List Subscription) (ledger : List Reminder)
    (sub : Subscription) :
    sub ∈ due tza now subs ledger ↔
      sub ∈ subs ∧ inWindow tza now sub ∧ ¬ hasFired ledger sub := by
  unfold due
  rw [List.mem_filter, List.mem_filter, isUpcoming_iff, notFired_iff, and_assoc]

theorem hasFired_sweep_of_inWindow (tza : TimeZone) (now : Int) (subs : List Subscription)
    (ledger : List Reminder) (sub : Subscription) (hs : sub ∈ subs)
    (hw : inWindow tza now sub) : hasFired (sweep tza now subs ledger).2 sub := by
  rw [sweep_ledger]
  by_cases hf : hasFired ledger sub
  · obtain ⟨r, hr, hk⟩ := hf
    exact ⟨r, List.mem_append_left _ hr, hk⟩
  · refine ⟨newReminder now sub, List.mem_append_right _ ?_, rfl, rfl⟩
    exact List.mem_map_of_mem _ ((mem_due_iff tza now subs ledger sub).mpr ⟨hs, hw, hf⟩)

theorem due_sweep_eq_nil (tza : TimeZone) (now : Int) (subs : List Subscription) (ledger : List Reminder) :
    due tza now subs (sweep tza now subs ledger).2 = [] := by
  rw [List.eq_nil_iff_forall_not_mem]
  intro sub hsub
  rw [mem_due_iff] at hsub
  exact hsub.2.2 (hasFired_sweep_of_inWindow tza now subs ledger sub hsub.1 hsub.2.1)

/-! ## Lemmas on `updateNextPaymentDate` -/

/-- What the `map` callback returns for one subscription: the subscription
itself when the id differs, and otherwise a copy with the advanced date. -/
theorem advanceIfId_some (tza : TimeZone) (id : Int) (old new : Subscription)
    (h : advanceIfId tza id old = some new) :
    (old.id ≠ id → new = old) ∧
      (old.id = id → advance tza old.nextPayment old.cycle = some new.nextPayment ∧
        new.id = old.id ∧ new.name = old.name ∧ new.price = old.price ∧
        new.cycle = old.cycle ∧ new.color = old.color ∧ new.icon = old.icon) := by
  unfold advanceIfId at h
  by_cases hid : old.id = id
  · rw [if_pos hid] at h
    cases hadv : advance tza old.nextPayment old.cycle with
    | none =>
      rw [hadv] at h
      exact absurd h (by simp)
    | some d =>
      rw [hadv] at h
      have hnew : new = { old with nextPayment := d } := (Option.some.inj h).symm
      subst hnew
      exact ⟨fun hne => absurd hid hne, fun _ => ⟨rfl, rfl, rfl, rfl, rfl, rfl, rfl⟩⟩
  · rw [if_neg hid] at h
    exact ⟨fun _ => (Option.some.inj h).symm, fun he => absurd he hid⟩

theorem advanceIfId_isSome_iff (tza : TimeZone) (id : Int) (sub : Subscription) :
    (advanceIfId tza id sub).isSome = true ↔
      (sub.id = id → (advance tza sub.nextPayment sub.cycle).isSome = true) := by
  unfold advanceIfId
  by_cases hid : sub.id = id
  · simp [hid]
  · simp [hid]

/-- The `map` of `updateNextPaymentDate` returns exactly when the callback
returns on every element, and then the two lists correspond element by
element. -/
theorem mapAdvance_some (tza : TimeZone) (id : Int) :
    ∀ l : List Subscription, (∀ sub ∈ l, (advanceIfId tza id sub).isSome = true) →
      ∃ l1, mapAdvance tza id l = some l1 ∧
        List.Forall₂ (fun old new => advanceIfId tza id old = some new) l l1
  | [], _ => ⟨[], rfl, List.Forall₂.nil⟩
  | sub :: rest, h => by
    obtain ⟨sub1, hsub1⟩ := Option.isSome_iff_exists.mp (h sub (List.mem_cons_self _ _))
    obtain ⟨rest1, hrest1, hall⟩ :=
      mapAdvance_some tza id rest (fun x hx => h x (List.mem_cons_of_mem _ hx))
    refine ⟨sub1 :: rest1, ?_, List.Forall₂.cons hsub1 hall⟩
    simp [mapAdvance, hsub1, hrest1]

theorem mapAdvance_forall₂ (tza : TimeZone) (id : Int) :
    ∀ l l1 : List Subscription, mapAdvance tza id l = some l1 →
      List.Forall₂ (fun old new => advanceIfId tza id old = some new) l l1
  | [], l1, h => by
    have hl : l1 = [] := by simpa [mapAdvance] using h.symm
    subst hl
    exact List.Forall₂.nil
  | sub :: rest, l1, h => by
    unfold mapAdvance at h
    cases hs : advanceIfId tza id sub with
    | none => simp [hs] at h
    | some sub1 =>
      cases hr : mapAdvance tza id rest with
      | none => simp [hs, hr] at h
      | some rest1 =>
        have hl : l1 = sub1 :: rest1 := by simpa [hs, hr] using h.symm
        subst hl
        exact List.Forall₂.cons hs (mapAdvance_forall₂ tza id rest rest1 hr)

theorem forall₂_advanceIfId_ids (tza : TimeZone) (id : Int) (l l1 : List Subscription)
    (h : List.Forall₂ (fun old new => advanceIfId tza id old = some new) l l1) :
    l1.map (fun sub => sub.id) = l.map (fun sub => sub.id) := by
  induction h with
  | nil => rfl
  | @cons a b la lb hab _ ih =>
    have hid : b.id = a.id := by
      by_cases hc : a.id = id
      · exact ((advanceIfId_some tza id a b hab).2 hc).2.1
      · rw [(advanceIfId_some tza id a b hab).1 hc]
    simp [List.map_cons, hid, ih]

theorem forall₂_unchanged (tza : TimeZone) (id : Int) (l l1 : List Subscription)
    (h : List.Forall₂ (fun old new => advanceIfId tza id old = some new) l l1)
    (hne : ∀ sub ∈ l, sub.id ≠ id) : l1 = l := by
  induction h with
  | nil => rfl
  | @cons a b la lb hab _ ih =>
    have hb : b = a := (advanceIfId_some tza id a b hab).1 (hne a (List.mem_cons_self _ _))
    rw [hb, ih (fun x hx => hne x (List.mem_cons_of_mem _ hx))]

theorem updateNextPaymentDate_reminders (tza : TimeZone) (id : Int) (st st1 : AppState)
    (h : updateNextPaymentDate tza id st = some st1) : st1.reminders = st.reminders := by
  unfold updateNextPaymentDate at h
  cases hm : mapAdvance tza id st.subscriptions with
  | none => simp [hm] at h
  | some subs =>
    rw [hm] at h
    have hst : st1 = { st with subscriptions := subs } := (Option.some.inj h).symm
    rw [hst]

theorem step_markPaid_reminders (tza : TimeZone) (id : Int) (st : AppState) :
    (step tza (Action.markPaid id) st).reminders = st.reminders := by
  show ((updateNextPaymentDate tza id st).getD st).reminders = st.reminders
  cases h : updateNextPaymentDate tza id st with
  | none => rfl
  | some st1 => exact updateNextPaymentDate_reminders tza id st st1 h

/-! ## The reminder sweep (C1 to C4) -/

/-- C1: a subscription of the collection gets a reminder event in a sweep if and
only if its days-until `d` satisfies `0 ≤ d ≤ 3` and the ledger holds no record
with its id and its `nextPayment`. -/
theorem sweep_reminds_iff (tza : TimeZone) (now : Int) (subs : List Subscription) (ledger : List Reminder)
    (s : Subscription) (hs : s ∈ subs) :
    (∃ e ∈ (sweep tza now subs ledger).1, e.subscription = some s) ↔
      ((∃ d : Int, getDaysUntil tza now s.nextPayment = some d ∧ 0 ≤ d ∧ d ≤ 3) ∧
        ¬ ∃ r ∈ ledger, r.subscriptionId = s.id ∧ r.date = s.nextPayment) := by
  rw [sweep_events]
  constructor
  · rintro ⟨e, he, hes⟩
    obtain ⟨sub, hsub, rfl⟩ := List.mem_map.mp he
    have hss : sub = s := Option.some.inj hes
    subst hss
    exact ((mem_due_iff tza now subs ledger sub).mp hsub).2
  · rintro ⟨hw, hf⟩
    exact ⟨newNotification tza now s,
      List.mem_map_of_mem _ ((mem_due_iff tza now subs ledger s).mpr ⟨hs, hw, hf⟩), rfl⟩

/-- Instance of C1: with an empty ledger, a subscription due in two days gets
its reminder event. -/
theorem sweep_reminds_iff_witness :
    ∃ e ∈ (sweep utc sampleNow [netflix, spotify] []).1, e.subscription = some netflix :=
  (sweep_reminds_iff utc sampleNow [netflix, spotify] [] netflix (by decide)).mpr
    ⟨⟨2, by decide, by decide, by decide⟩, by simp⟩

/-- C2: a second sweep over the same collection at the same clock value, on the
ledger the first sweep left, emits no reminder event and leaves that ledger as
it is. -/
theorem sweep_idempotent (tza : TimeZone) (now : Int) (subs : List Subscription) (ledger : List Reminder) :
    sweep tza now subs (sweep tza now subs ledger).2 = ([], (sweep tza now subs ledger).2) := by
  apply Prod.ext
  · rw [sweep_events, due_sweep_eq_nil]
    rfl
  · rw [sweep_ledger tza now subs (sweep tza now subs ledger).2, due_sweep_eq_nil]
    simp

/-- C3 fails as stated: when the collection holds the same subscription twice,
one sweep on an empty ledger emits two events for the one (id, nextPayment) pair
and leaves two ledger records with the one key. -/
theorem sweep_duplicate_counterexample :
    (([] : List Reminder).map reminderKey).Nodup ∧
      ¬ ((sweep utc sampleNow [netflix, netflix] []).1.map eventKey).Nodup ∧
      ¬ ((sweep utc sampleNow [netflix, netflix] []).2.map reminderKey).Nodup := by
  decide

/-- C3, amended: when no two subscriptions of the collection share an
(id, nextPayment) pair and the ledger has at most one record per key, a sweep
emits at most one reminder event per pair and the ledger afterwards again has at
most one record per key. -/
theorem sweep_keys_nodup (tza : TimeZone) (now : Int) (subs : List Subscription) (ledger : List Reminder)
    (hsubs : (subs.map subKey).Nodup) (hledger : (ledger.map reminderKey).Nodup) :
    ((sweep tza now subs ledger).1.map eventKey).Nodup ∧
      ((sweep tza now subs ledger).2.map reminderKey).Nodup := by
  have hdue : ((due tza now subs ledger).map subKey).Nodup := by
    refine List.Nodup.sublist (List.Sublist.map subKey ?_) hsubs
    exact (List.filter_sublist _).trans (List.filter_sublist _)
  constructor
  · rw [sweep_events, List.map_map]
    have hfun : eventKey ∘ newNotification tza now = fun s => some (subKey s) := rfl
    rw [hfun]
    have hmap : (due tza now subs ledger).map (fun s => some (subKey s)) =
        ((due tza now subs ledger).map subKey).map some := by
      rw [List.map_map]
      rfl
    rw [hmap]
    exact hdue.map (Option.some_injective _)
  · rw [sweep_ledger, List.map_append, List.map_map]
    have hfun : reminderKey ∘ newReminder now = subKey := rfl
    rw [hfun]
    refine List.Nodup.append hledger hdue ?_
    intro k hk1 hk2
    obtain ⟨r, hr, hrk⟩ := List.mem_map.mp hk1
    obtain ⟨sub, hsub, hsk⟩ := List.mem_map.mp hk2
    have hnf := ((mem_due_iff tza now subs ledger sub).mp hsub).2.2
    apply hnf
    have hkk : reminderKey r = subKey sub := hrk.trans hsk.symm
    exact ⟨r, hr, congrArg Prod.fst hkk, congrArg Prod.snd hkk⟩

/-- Instance of C3 as amended: two distinct subscriptions in the window, empty
ledger. -/
theorem sweep_keys_nodup_witness :
    ((sweep utc sampleNow [netflix, { netflix with id := 7 }] []).1.map eventKey).Nodup ∧
      ((sweep utc sampleNow [netflix, { netflix with id := 7 }] []).2.map reminderKey).Nodup :=
  sweep_keys_nodup utc sampleNow [netflix, { netflix with id := 7 }] [] (by decide) (by decide)

/-- C4: the ledger after a sweep is the input ledger, in its order, followed by
one new record (subscription id, nextPayment) for each event of the sweep, in
the order of emission; every event carries its subscription; and afterwards
every subscription of the collection whose days-until is in 0..3 has a record
for its (id, nextPayment). -/
theorem sweep_ledger_effect (tza : TimeZone) (now : Int) (subs : List Subscription) (ledger : List Reminder) :
    (sweep tza now subs ledger).2 =
        ledger ++ ((sweep tza now subs ledger).1.filterMap (fun e => e.subscription)).map
          (fun s => { id := now, subscriptionId := s.id, date := s.nextPayment }) ∧
      ((sweep tza now subs ledger).1.filterMap (fun e => e.subscription)).length =
        (sweep tza now subs ledger).1.length ∧
      ∀ s ∈ subs, (∃ d : Int, getDaysUntil tza now s.nextPayment = some d ∧ 0 ≤ d ∧ d ≤ 3) →
        ∃ r ∈ (sweep tza now subs ledger).2,
          r.subscriptionId = s.id ∧ r.date = s.nextPayment := by
  have hfm : (sweep tza now subs ledger).1.filterMap (fun e => e.subscription) =
      due tza now subs ledger := by
    rw [sweep_events, List.filterMap_map]
    have hfun : (fun e : Notification => e.subscription) ∘ newNotification tza now = some := rfl
    rw [hfun, List.filterMap_some]
  refine ⟨?_, ?_, ?_⟩
  · rw [hfm, sweep_ledger]
    rfl
  · rw [hfm, sweep_events, List.length_map]
  · intro s hs hw
    exact hasFired_sweep_of_inWindow tza now subs ledger s hs hw

/-- Instance of C4: after the sweep the subscription due in two days has its
ledger record. -/
theorem sweep_ledger_effect_witness :
    ∃ r ∈ (sweep utc sampleNow [netflix, spotify] []).2,
      r.subscriptionId = netflix.id ∧ r.date = netflix.nextPayment :=
  (sweep_ledger_effect utc sampleNow [netflix, spotify] []).2.2 netflix (by decide)
    ⟨2, by decide, by decide, by decide⟩

/-! ## Marking as paid, deleting, and the ledger invariant (C5 to C7) -/

/-- C5 fails as stated: for a subscription whose `nextPayment` is not a date,
`updateNextPaymentDate` throws (`toISOString` on an Invalid Date) and returns no
collection. -/
theorem updateNextPaymentDate_throws_counterexample :
    updateNextPaymentDate utc 1 (stateOf [{ netflix with nextPayment := "soon" }] []) = none := by
  decide

/-- C5, amended: when the date advance is defined on every subscription with the
given id, `updateNextPaymentDate` returns a collection of the same length and
order, in which a subscription with another id is unchanged and a subscription
with that id has `nextPayment` replaced by the advance of its old value while
id, name, price, cycle, color and icon stay; without a subscription of that id
the collection is returned unchanged. In every case, with or without that
condition, the ledger is not modified: a call that returns leaves the ledger,
and a call that throws leaves the whole state. -/
theorem updateNextPaymentDate_frame (tza : TimeZone) (id : Int) (st : AppState) :
    ((∀ sub ∈ st.subscriptions, sub.id = id →
        (advance tza sub.nextPayment sub.cycle).isSome = true) →
      ∃ st1, updateNextPaymentDate tza id st = some st1 ∧
        st1.subscriptions.length = st.subscriptions.length ∧
        List.Forall₂
          (fun old new =>
            (old.id ≠ id → new = old) ∧
            (old.id = id → advance tza old.nextPayment old.cycle = some new.nextPayment ∧
              new.id = old.id ∧ new.name = old.name ∧ new.price = old.price ∧
              new.cycle = old.cycle ∧ new.color = old.color ∧ new.icon = old.icon))
          st.subscriptions st1.subscriptions ∧
        ((∀ sub ∈ st.subscriptions, sub.id ≠ id) → st1.subscriptions = st.subscriptions) ∧
        st1.reminders = st.reminders) ∧
    (∀ st1, updateNextPaymentDate tza id st = some st1 → st1.reminders = st.reminders) ∧
    (updateNextPaymentDate tza id st = none → step tza (Action.markPaid id) st = st) ∧
    (step tza (Action.markPaid id) st).reminders = st.reminders := by
  refine ⟨?_, fun st1 h => updateNextPaymentDate_reminders tza id st st1 h, ?_,
    step_markPaid_reminders tza id st⟩
  · intro hdef
    obtain ⟨subs1, hmap, hall⟩ := mapAdvance_some tza id st.subscriptions
      (fun sub hsub => (advanceIfId_isSome_iff tza id sub).mpr (hdef sub hsub))
    refine ⟨{ st with subscriptions := subs1 }, ?_, ?_, ?_, ?_, rfl⟩
    · simp [updateNextPaymentDate, hmap]
    · exact hall.length_eq.symm
    · exact hall.imp (fun old new h => advanceIfId_some tza id old new h)
    · exact fun hne => forall₂_unchanged tza id st.subscriptions subs1 hall hne
  · intro hnone
    show (updateNextPaymentDate tza id st).getD st = st
    rw [hnone]
    rfl

/-- Instance of C5 as amended: marking the first of two subscriptions as paid
moves its date by a month and leaves the other subscription and the ledger; for
a subscription whose `nextPayment` is not a date the call throws and the ledger
stays as well. -/
theorem updateNextPaymentDate_frame_witness :
    (∃ st1, updateNextPaymentDate utc 1
        (stateOf [netflix, spotify] [{ id := 5, subscriptionId := 1, date := "2025-05-14" }])
        = some st1 ∧
      st1.subscriptions.length = 2 ∧
      List.Forall₂
        (fun old new =>
          (old.id ≠ 1 → new = old) ∧
          (old.id = 1 → advance utc old.nextPayment old.cycle = some new.nextPayment ∧
            new.id = old.id ∧ new.name = old.name ∧ new.price = old.price ∧
            new.cycle = old.cycle ∧ new.color = old.color ∧ new.icon = old.icon))
        [netflix, spotify] st1.subscriptions ∧
      ((∀ sub ∈ [netflix, spotify], sub.id ≠ 1) → st1.subscriptions = [netflix, spotify]) ∧
      st1.reminders = [{ id := 5, subscriptionId := 1, date := "2025-05-14" }]) ∧
    step utc (Action.markPaid 1)
        (stateOf [{ netflix with nextPayment := "soon" }]
          [{ id := 5, subscriptionId := 1, date := "soon" }])
      = stateOf [{ netflix with nextPayment := "soon" }]
          [{ id := 5, subscriptionId := 1, date := "soon" }] :=
  ⟨(updateNextPaymentDate_frame utc 1
      (stateOf [netflix, spotify] [{ id := 5, subscriptionId := 1, date := "2025-05-14" }])).1
      (by decide),
    (updateNextPaymentDate_frame utc 1
      (stateOf [{ netflix with nextPayment := "soon" }]
        [{ id := 5, subscriptionId := 1, date := "soon" }])).2.2.1 (by decide)⟩

/-- C6: `deleteSubscription` keeps, in order and with their multiplicity, exactly
the subscriptions with another id and exactly the ledger records with another
`subscriptionId`; afterwards no ledger record has the deleted id. -/
theorem deleteSubscription_cascade (id : Int) (st : AppState) :
    (deleteSubscription id st).subscriptions
        = st.subscriptions.filter (fun sub => sub.id ≠ id) ∧
      (deleteSubscription id st).reminders
        = st.reminders.filter (fun r => r.subscriptionId ≠ id) ∧
      (deleteSubscription id st).subscriptions.Sublist st.subscriptions ∧
      (deleteSubscription id st).reminders.Sublist st.reminders ∧
      (∀ sub, sub ∈ (deleteSubscription id st).subscriptions ↔
        sub ∈ st.subscriptions ∧ sub.id ≠ id) ∧
      (∀ r, r ∈ (deleteSubscription id st).reminders ↔
        r ∈ st.reminders ∧ r.subscriptionId ≠ id) ∧
      (∀ sub, sub.id ≠ id →
        (deleteSubscription id st).subscriptions.count sub = st.subscriptions.count sub) ∧
      (∀ r, r.subscriptionId ≠ id →
        (deleteSubscription id st).reminders.count r = st.reminders.count r) ∧
      (∀ r ∈ (deleteSubscription id st).reminders, r.subscriptionId ≠ id) := by
  refine ⟨rfl, rfl, List.filter_sublist _, List.filter_sublist _, ?_, ?_, ?_, ?_, ?_⟩
  · intro sub
    simp [deleteSubscription, addNotification, List.mem_filter]
  · intro r
    simp [deleteSubscription, addNotification, List.mem_filter]
  · intro sub hsub
    simp [deleteSubscription, addNotification, List.count_filter, hsub]
  · intro r hr
    simp [deleteSubscription, addNotification, List.count_filter, hr]
  · intro r hr
    simp [deleteSubscription, addNotification, List.mem_filter] at hr
    exact hr.2

/-- Instance of C6: deleting subscription 1 keeps the other subscription and
the other record. -/
theorem deleteSubscription_cascade_witness :
    (deleteSubscription 1 (stateOf [netflix, spotify, netflix]
        [{ id := 5, subscriptionId := 1, date := "2025-05-14" },
         { id := 6, subscriptionId := 2, date := "2025-05-20" }])).subscriptions = [spotify] ∧
      (deleteSubscription 1 (stateOf [netflix, spotify, netflix]
        [{ id := 5, subscriptionId := 1, date := "2025-05-14" },
         { id := 6, subscriptionId := 2, date := "2025-05-20" }])).reminders
        = [{ id := 6, subscriptionId := 2, date := "2025-05-20" }] :=
  ⟨(deleteSubscription_cascade 1 _).1.trans (by decide),
    (deleteSubscription_cascade 1 _).2.1.trans (by decide)⟩

/-- C7: when every ledger record refers to the id of a subscription of the
collection, this is again so after `addSubscription`, after
`updateNextPaymentDate`, after `deleteSubscription` and after a sweep, for every
argument and clock value. -/
theorem step_preserves_noDangling (tza : TimeZone) (a : Action) (st : AppState)
    (h : NoDangling st) : NoDangling (step tza a st) := by
  cases a with
  | add now =>
    intro r hr
    have hrem : (addSubscription now st).reminders = st.reminders := by
      unfold addSubscription addNotification
      split <;> rfl
    have hsubs : ∀ sub ∈ st.subscriptions, sub ∈ (addSubscription now st).subscriptions := by
      intro sub hsub
      unfold addSubscription addNotification
      split
      · exact hsub
      · exact List.mem_append_left _ hsub
    obtain ⟨sub, hsub, hid⟩ := h r (hrem ▸ hr)
    exact ⟨sub, hsubs sub hsub, hid⟩
  | markPaid id =>
    show NoDangling ((updateNextPaymentDate tza id st).getD st)
    cases hu : updateNextPaymentDate tza id st with
    | none => exact h
    | some st1 =>
      intro r hr
      have hrem : st1.reminders = st.reminders := updateNextPaymentDate_reminders tza id st st1 hu
      obtain ⟨sub, hsub, hid⟩ := h r (hrem ▸ hr)
      have hids : st1.subscriptions.map (fun s => s.id) = st.subscriptions.map (fun s => s.id) := by
        unfold updateNextPaymentDate at hu
        cases hm : mapAdvance tza id st.subscriptions with
        | none => simp [hm] at hu
        | some subs =>
          rw [hm] at hu
          have hst : st1 = { st with subscriptions := subs } := (Option.some.inj hu).symm
          rw [hst]
          exact forall₂_advanceIfId_ids tza id _ _ (mapAdvance_forall₂ tza id _ _ hm)
      have hmem : sub.id ∈ st1.subscriptions.map (fun s => s.id) := by
        rw [hids]
        exact List.mem_map_of_mem _ hsub
      obtain ⟨sub1, hsub1, hid1⟩ := List.mem_map.mp hmem
      exact ⟨sub1, hsub1, hid1.trans hid⟩
  | delete id =>
    intro r hr
    have hr1 : r ∈ st.reminders ∧ r.subscriptionId ≠ id := by
      simpa [step, deleteSubscription, addNotification, List.mem_filter] using hr
    obtain ⟨sub, hsub, hid⟩ := h r hr1.1
    refine ⟨sub, ?_, hid⟩
    have hne : sub.id ≠ id := hid ▸ hr1.2
    simpa [step, deleteSubscription, addNotification, List.mem_filter] using ⟨hsub, hne⟩
  | sweep now =>
    intro r hr
    have hst : step tza (Action.sweep now) st = checkReminders tza now st := rfl
    rw [hst, checkReminders_eq] at hr ⊢
    rcases List.mem_append.mp hr with hold | hnew
    · exact h r hold
    · obtain ⟨sub, hsub, rfl⟩ := List.mem_map.mp hnew
      exact ⟨sub, ((mem_due_iff tza now _ _ sub).mp hsub).1, rfl⟩

/-- Instance of C7: a state with one record for one of its subscriptions, after
a sweep. -/
theorem step_preserves_noDangling_witness :
    NoDangling (step utc (Action.sweep sampleNow)
      (stateOf [netflix, spotify] [{ id := 5, subscriptionId := 2, date := "2025-04-20" }])) :=
  step_preserves_noDangling utc (Action.sweep sampleNow)
    (stateOf [netflix, spotify] [{ id := 5, subscriptionId := 2, date := "2025-04-20" }])
    (by decide)

/-! ## Adding a subscription (C8, C9) -/

theorem parseFloat_empty : parseFloat "" = JSNumber.nan := by decide

theorem dateFromString_empty : dateFromString "" = none := by decide

theorem addSubscription_of_missing (now : Int) (st : AppState)
    (h : missingField st.newSubscription) :
    addSubscription now st =
      addNotification "Please fill in all required fields" "error" st := by
  unfold missingField at h
  unfold addSubscription
  rw [if_pos h]

theorem addSubscription_of_filled (now : Int) (st : AppState)
    (h : ¬ missingField st.newSubscription) :
    (addSubscription now st).subscriptions =
      st.subscriptions ++ [draftSubscription now st.newSubscription] := by
  unfold missingField at h
  unfold addSubscription
  rw [if_neg h]
  rfl

theorem not_missingField_of_specValidDraft (d : Draft) (h : specValidDraft d) :
    ¬ missingField d := by
  obtain ⟨hname, hprice, hdate⟩ := h
  rintro (hn | hp | hd)
  · exact hname hn
  · rw [hp, parseFloat_empty] at hprice
    exact absurd hprice (by decide)
  · rw [hd, dateFromString_empty] at hdate
    exact absurd hdate (by decide)

theorem parseFloat_minus_five : parseFloat "-5" = JSNumber.fin (-5) := by
  simp [parseFloat, strUnsignedDecimalLiteral, isStrWhiteSpaceChar, isDecimalDigit,
    digitsValue, exponentPart, pow10, JSNumber.neg]

/-- C8 fails on the code: a draft with the price text `-5`, which parses as a
negative number and so does not meet the validation of the specification, passes
the guard of line 141 and is appended with the price -5. -/
theorem addSubscription_negative_price_evaluation :
    ¬ specValidDraft { gymDraft with price := "-5" } ∧
      (addSubscription sampleNow
        { stateOf [netflix] [] with newSubscription := { gymDraft with price := "-5" } }).subscriptions
        = [netflix,
            { id := sampleNow, name := "Gym", price := JSNumber.fin (-5), cycle := "monthly",
              nextPayment := "2025-06-01", color := "bg-blue-500", icon := "G" }] := by
  constructor
  · rintro ⟨_, hprice, _⟩
    have hp : (parseFloat "-5").isNonNeg = true := hprice
    rw [parseFloat_minus_five] at hp
    simp only [JSNumber.isNonNeg, decide_eq_true_eq] at hp
    norm_num at hp
  · rw [addSubscription_of_filled sampleNow _ (by decide)]
    show [netflix] ++ [draftSubscription sampleNow { gymDraft with price := "-5" }] = _
    simp [draftSubscription, gymDraft, parseFloat_minus_five]

/-- What the guard of `addSubscription` does decide: a draft that meets the
validation of the specification is appended, and a draft with an empty name,
price or `nextPayment` is rejected with an error notification while the
collection stays. -/
theorem addSubscription_guard (now : Int) (st : AppState) :
    (specValidDraft st.newSubscription →
      (addSubscription now st).subscriptions =
        st.subscriptions ++ [draftSubscription now st.newSubscription]) ∧
    (missingField st.newSubscription →
      (addSubscription now st).subscriptions = st.subscriptions ∧
      (addSubscription now st).reminders = st.reminders ∧
      (addSubscription now st).notifications =
        { message := "Please fill in all required fields", type := "error",
          subscription := none } :: st.notifications) := by
  constructor
  · intro h
    exact addSubscription_of_filled now st (not_missingField_of_specValidDraft _ h)
  · intro h
    rw [addSubscription_of_missing now st h]
    exact ⟨rfl, rfl, rfl⟩

/-- C9 fails as stated: when the clock value equals the id of a subscription of
the collection, the appended subscription carries that same id. -/
theorem addSubscription_id_clash_counterexample :
    ¬ missingField gymDraft ∧
      ([{ netflix with id := sampleNow }].map (fun sub => sub.id)).Nodup ∧
      ¬ ((addSubscription sampleNow
          { stateOf [{ netflix with id := sampleNow }] [] with
            newSubscription := gymDraft }).subscriptions.map (fun sub => sub.id)).Nodup := by
  refine ⟨by unfold missingField; decide, by decide, ?_⟩
  rw [addSubscription_of_filled sampleNow _ (by decide)]
  simp [stateOf, draftSubscription, netflix]

/-- C9, amended: when the ids of the collection are pairwise distinct, the draft
is accepted and the clock value is not the id of a subscription of the
collection, the appended subscription has the clock value as its id, which
differs from every id of the collection, and the ids are pairwise distinct after
the add. -/
theorem addSubscription_fresh_id (now : Int) (st : AppState)
    (hnodup : (st.subscriptions.map (fun sub => sub.id)).Nodup)
    (hacc : ¬ missingField st.newSubscription)
    (hclock : ∀ sub ∈ st.subscriptions, sub.id ≠ now) :
    (addSubscription now st).subscriptions =
        st.subscriptions ++ [draftSubscription now st.newSubscription] ∧
      (draftSubscription now st.newSubscription).id = now ∧
      (∀ sub ∈ st.subscriptions, (draftSubscription now st.newSubscription).id ≠ sub.id) ∧
      ((addSubscription now st).subscriptions.map (fun sub => sub.id)).Nodup := by
  refine ⟨addSubscription_of_filled now st hacc, rfl, ?_, ?_⟩
  · intro sub hsub heq
    exact hclock sub hsub heq.symm
  · rw [addSubscription_of_filled now st hacc, List.map_append]
    refine List.Nodup.append hnodup (List.nodup_singleton _) ?_
    intro i hi hi1
    obtain ⟨sub, hsub, hid⟩ := List.mem_map.mp hi
    have hnow : i = now := by simpa [draftSubscription] using hi1
    exact hclock sub hsub (hid.trans hnow)

/-- Instance of C9 as amended: the seed ids 1 and 2 and a later clock value. -/
theorem addSubscription_fresh_id_witness :
    ((addSubscription sampleNow
        { stateOf [netflix, spotify] [] with newSubscription := gymDraft }).subscriptions.map
        (fun sub => sub.id)).Nodup :=
  (addSubscription_fresh_id sampleNow
    { stateOf [netflix, spotify] [] with newSubscription := gymDraft }
    (by decide) (by decide) (by decide)).2.2.2

/-! ## The reminder message (C10) -/

/-- C10: every event of a sweep carries a subscription `s` of the collection and
has the type `warning`; when the days-until `d` of `s` is 1, 2 or 3 its message
is `s.name`, then ` payment due in `, then `d` in decimal, then ` days`. -/
theorem reminder_message_future (tza : TimeZone) (now : Int) (subs : List Subscription)
    (ledger : List Reminder) (e : Notification)
    (he : e ∈ (sweep tza now subs ledger).1) :
    ∃ s ∈ subs, e.subscription = some s ∧ e.type = "warning" ∧
      ∀ d : Int, getDaysUntil tza now s.nextPayment = some d → 1 ≤ d → d ≤ 3 →
        e.message = s.name ++ " payment due in " ++ toString d ++ " days" ∧
        (d = 1 → e.message = s.name ++ " payment due in 1 days") ∧
        (d = 2 → e.message = s.name ++ " payment due in 2 days") ∧
        (d = 3 → e.message = s.name ++ " payment due in 3 days") := by
  rw [sweep_events] at he
  obtain ⟨s, hs, rfl⟩ := List.mem_map.mp he
  refine ⟨s, ((mem_due_iff tza now subs ledger s).mp hs).1, rfl, rfl, ?_⟩
  intro d hd h1 h3
  have hmsg : (newNotification tza now s).message =
      s.name ++ " payment due in " ++ toString d ++ " days" := by
    have hne : ¬ (some d = some (0 : Int)) := by
      intro h0
      have : d = 0 := Option.some.inj h0
      omega
    simp only [newNotification, hd, if_neg hne, numberToString, String.append_assoc]
  refine ⟨hmsg, ?_, ?_, ?_⟩
  · intro h
    rw [hmsg, h, String.append_assoc, String.append_assoc]
    exact congrArg (fun t => s.name ++ t) (by decide)
  · intro h
    rw [hmsg, h, String.append_assoc, String.append_assoc]
    exact congrArg (fun t => s.name ++ t) (by decide)
  · intro h
    rw [hmsg, h, String.append_assoc, String.append_assoc]
    exact congrArg (fun t => s.name ++ t) (by decide)

/-- Instance of C10: the subscription due in two days yields the message with
`2 days`. -/
theorem reminder_message_future_witness :
    (sweep utc sampleNow [netflix, spotify] []).1 =
        [{ message := "Netflix payment due in 2 days", type := "warning",
           subscription := some netflix }] ∧
      ∃ s ∈ [netflix, spotify],
        (newNotification utc sampleNow netflix).subscription = some s ∧
        (newNotification utc sampleNow netflix).type = "warning" ∧
        ∀ d : Int, getDaysUntil utc sampleNow s.nextPayment = some d → 1 ≤ d → d ≤ 3 →
          (newNotification utc sampleNow netflix).message =
              s.name ++ " payment due in " ++ toString d ++ " days" ∧
            (d = 1 → (newNotification utc sampleNow netflix).message =
              s.name ++ " payment due in 1 days") ∧
            (d = 2 → (newNotification utc sampleNow netflix).message =
              s.name ++ " payment due in 2 days") ∧
            (d = 3 → (newNotification utc sampleNow netflix).message =
              s.name ++ " payment due in 3 days") :=
  ⟨by decide,
    reminder_message_future utc sampleNow [netflix, spotify] [] (newNotification utc sampleNow netflix)
      (by decide)⟩

/-! ## Portfolio totals (C15, C16) -/

theorem cycle_cases (c : String) (h : (Cycle.ofString c).isSome = true) :
    c = "weekly" ∨ c = "monthly" ∨ c = "quarterly" ∨ c = "yearly" := by
  unfold Cycle.ofString at h
  by_cases h1 : c = "weekly"
  · exact Or.inl h1
  by_cases h2 : c = "monthly"
  · exact Or.inr (Or.inl h2)
  by_cases h3 : c = "quarterly"
  · exact Or.inr (Or.inr (Or.inl h3))
  by_cases h4 : c = "yearly"
  · exact Or.inr (Or.inr (Or.inr h4))
  simp [h1, h2, h3, h4] at h

theorem monthlyStep_fin (a q : ℚ) (sub : Subscription) (hq : sub.price = .fin q)
    (hc : (Cycle.ofString sub.cycle).isSome = true) :
    monthlyStep (.fin a) sub = .fin (a + monthlyEquivalentOf sub) := by
  rcases cycle_cases sub.cycle hc with hw | hm | hq4 | hy
  · simp [monthlyStep, monthlyEquivalentOf, Cycle.ofString, hw, hq, parseFloatOfNumber,
      JSNumber.toRat, specMonthlyEquivalent, JSNumber.mul, JSNumber.add]
  · simp [monthlyStep, monthlyEquivalentOf, Cycle.ofString, hm, hq, parseFloatOfNumber,
      JSNumber.toRat, specMonthlyEquivalent, JSNumber.add]
  · simp [monthlyStep, monthlyEquivalentOf, Cycle.ofString, hq4, hq, parseFloatOfNumber,
      JSNumber.toRat, specMonthlyEquivalent, JSNumber.div, JSNumber.add]
  · simp [monthlyStep, monthlyEquivalentOf, Cycle.ofString, hy, hq, parseFloatOfNumber,
      JSNumber.toRat, specMonthlyEquivalent, JSNumber.div, JSNumber.add]

theorem annualStep_fin (a q : ℚ) (sub : Subscription) (hq : sub.price = .fin q)
    (hc : (Cycle.ofString sub.cycle).isSome = true) :
    annualStep (.fin a) sub = .fin (a + annualEquivalentOf sub) := by
  rcases cycle_cases sub.cycle hc with hw | hm | hq4 | hy
  · simp [annualStep, annualEquivalentOf, Cycle.ofString, hw, hq, parseFloatOfNumber,
      JSNumber.toRat, specAnnualEquivalent, JSNumber.mul, JSNumber.add]
  · simp [annualStep, annualEquivalentOf, Cycle.ofString, hm, hq, parseFloatOfNumber,
      JSNumber.toRat, specAnnualEquivalent, JSNumber.mul, JSNumber.add]
  · simp [annualStep, annualEquivalentOf, Cycle.ofString, hq4, hq, parseFloatOfNumber,
      JSNumber.toRat, specAnnualEquivalent, JSNumber.mul, JSNumber.add]
  · simp [annualStep, annualEquivalentOf, Cycle.ofString, hy, hq, parseFloatOfNumber,
      JSNumber.toRat, specAnnualEquivalent, JSNumber.add]

/-- The `reduce` of `calculateMonthlyTotal` from any finite accumulator. -/
theorem foldl_monthlyStep :
    ∀ (subs : List Subscription), (∀ sub ∈ subs, hasPriceAndCycle sub) → ∀ a : ℚ,
      subs.foldl monthlyStep (.fin a) = .fin (a + (subs.map monthlyEquivalentOf).sum)
  | [], _, a => by simp
  | sub :: rest, h, a => by
    obtain ⟨⟨q, hq⟩, hc⟩ := h sub (List.mem_cons_self _ _)
    rw [List.foldl_cons, monthlyStep_fin a q sub hq hc,
      foldl_monthlyStep rest (fun x hx => h x (List.mem_cons_of_mem _ hx)),
      List.map_cons, List.sum_cons, add_assoc]

/-- The `reduce` of `calculateAnnualTotal` from any finite accumulator. -/
theorem foldl_annualStep :
    ∀ (subs : List Subscription), (∀ sub ∈ subs, hasPriceAndCycle sub) → ∀ a : ℚ,
      subs.foldl annualStep (.fin a) = .fin (a + (subs.map annualEquivalentOf).sum)
  | [], _, a => by simp
  | sub :: rest, h, a => by
    obtain ⟨⟨q, hq⟩, hc⟩ := h sub (List.mem_cons_self _ _)
    rw [List.foldl_cons, annualStep_fin a q sub hq hc,
      foldl_annualStep rest (fun x hx => h x (List.mem_cons_of_mem _ hx)),
      List.map_cons, List.sum_cons, add_assoc]

/-- C15: over exact rationals, for every collection of subscriptions with a
finite price and one of the four cycles, `calculateMonthlyTotal` is the sum of
the monthly equivalents (price for monthly, price/12 for yearly, price*4.33 for
weekly, price/3 for quarterly); the empty collection gives 0, and the portfolio
of 12 a month and 120 a year gives 22. -/
theorem calculateMonthlyTotal_eq_sum (st : AppState)
    (h : ∀ sub ∈ st.subscriptions, hasPriceAndCycle sub) :
    calculateMonthlyTotal st = .fin ((st.subscriptions.map monthlyEquivalentOf).sum) ∧
      calculateMonthlyTotal (stateOf [] []) = .fin 0 ∧
      calculateMonthlyTotal (stateOf samplePortfolio []) = .fin 22 := by
  have hgen : ∀ st1 : AppState, (∀ sub ∈ st1.subscriptions, hasPriceAndCycle sub) →
      calculateMonthlyTotal st1 = .fin ((st1.subscriptions.map monthlyEquivalentOf).sum) := by
    intro st1 h1
    unfold calculateMonthlyTotal
    rw [foldl_monthlyStep st1.subscriptions h1 0, zero_add]
  refine ⟨hgen st h, rfl, ?_⟩
  rw [hgen (stateOf samplePortfolio []) (by
    intro sub hsub
    simp only [stateOf, samplePortfolio, List.mem_cons, List.mem_singleton, List.not_mem_nil,
      or_false] at hsub
    rcases hsub with rfl | rfl
    · exact ⟨⟨12, rfl⟩, by decide⟩
    · exact ⟨⟨120, rfl⟩, by decide⟩)]
  simp [stateOf, samplePortfolio, monthlyEquivalentOf, Cycle.ofString, JSNumber.toRat,
    specMonthlyEquivalent, netflix, spotify]
  norm_num

/-- Instance of C15: a weekly and a quarterly subscription. -/
theorem calculateMonthlyTotal_eq_sum_witness :
    calculateMonthlyTotal
        (stateOf [{ netflix with price := .fin 10, cycle := "weekly" },
          { spotify with price := .fin 30, cycle := "quarterly" }] [])
      = .fin ((([{ netflix with price := .fin 10, cycle := "weekly" },
          { spotify with price := .fin 30, cycle := "quarterly" }] :
            List Subscription).map monthlyEquivalentOf).sum) :=
  (calculateMonthlyTotal_eq_sum
    (stateOf [{ netflix with price := .fin 10, cycle := "weekly" },
      { spotify with price := .fin 30, cycle := "quarterly" }] [])
    (by
      intro sub hsub
      simp only [stateOf, List.mem_cons, List.mem_singleton, List.not_mem_nil, or_false] at hsub
      rcases hsub with rfl | rfl
      · exact ⟨⟨10, rfl⟩, by decide⟩
      · exact ⟨⟨30, rfl⟩, by decide⟩)).1

/-- C16: over exact rationals, for every collection of subscriptions with a
finite price and one of the four cycles, `calculateAnnualTotal` is the sum of
the annual equivalents (price*12 for monthly, price for yearly, price*52 for
weekly, price*4 for quarterly); the empty collection gives 0, and the portfolio
of 12 a month and 120 a year gives 264. -/
theorem calculateAnnualTotal_eq_sum (st : AppState)
    (h : ∀ sub ∈ st.subscriptions, hasPriceAndCycle sub) :
    calculateAnnualTotal st = .fin ((st.subscriptions.map annualEquivalentOf).sum) ∧
      calculateAnnualTotal (stateOf [] []) = .fin 0 ∧
      calculateAnnualTotal (stateOf samplePortfolio []) = .fin 264 := by
  have hgen : ∀ st1 : AppState, (∀ sub ∈ st1.subscriptions, hasPriceAndCycle sub) →
      calculateAnnualTotal st1 = .fin ((st1.subscriptions.map annualEquivalentOf).sum) := by
    intro st1 h1
    unfold calculateAnnualTotal
    rw [foldl_annualStep st1.subscriptions h1 0, zero_add]
  refine ⟨hgen st h, rfl, ?_⟩
  rw [hgen (stateOf samplePortfolio []) (by
    intro sub hsub
    simp only [stateOf, samplePortfolio, List.mem_cons, List.mem_singleton, List.not_mem_nil,
      or_false] at hsub
    rcases hsub with rfl | rfl
    · exact ⟨⟨12, rfl⟩, by decide⟩
    · exact ⟨⟨120, rfl⟩, by decide⟩)]
  simp [stateOf, samplePortfolio, annualEquivalentOf, Cycle.ofString, JSNumber.toRat,
    specAnnualEquivalent, netflix, spotify]
  norm_num

/-- Instance of C16: a weekly and a quarterly subscription. -/
theorem calculateAnnualTotal_eq_sum_witness :
    calculateAnnualTotal
        (stateOf [{ netflix with price := .fin 10, cycle := "weekly" },
          { spotify with price := .fin 30, cycle := "quarterly" }] [])
      = .fin ((([{ netflix with price := .fin 10, cycle := "weekly" },
          { spotify with price := .fin 30, cycle := "quarterly" }] :
            List Subscription).map annualEquivalentOf).sum) :=
  (calculateAnnualTotal_eq_sum
    (stateOf [{ netflix with price := .fin 10, cycle := "weekly" },
      { spotify with price := .fin 30, cycle := "quarterly" }] [])
    (by
      intro sub hsub
      simp only [stateOf, List.mem_cons, List.mem_singleton, List.not_mem_nil, or_false] at hsub
      rcases hsub with rfl | rfl
      · exact ⟨⟨10, rfl⟩, by decide⟩
      · exact ⟨⟨30, rfl⟩, by decide⟩)).1

/-! ## Lemmas on the calendar -/

/-- The year of the era of a day of the era given by its century, its four-year
cycle, its year in the cycle and its day in the year. -/
theorem yoe_of_parts (b q j u : Int) (hb0 : 0 ≤ b) (hb : b ≤ 3) (hq0 : 0 ≤ q) (hq : q ≤ 24)
    (hj0 : 0 ≤ j) (hj : j ≤ 3) (hu0 : 0 ≤ u) (hu : u ≤ 365)
    (hleap : u = 365 → j = 3 ∧ (q ≠ 24 ∨ b = 3)) :
    ((36524 * b + 1461 * q + 365 * j + u) - (36524 * b + 1461 * q + 365 * j + u) / 1460
      + (36524 * b + 1461 * q + 365 * j + u) / 36524
      - (36524 * b + 1461 * q + 365 * j + u) / 146096) / 365 = 100 * b + 4 * q + j := by
  generalize hdoe : 36524 * b + 1461 * q + 365 * j + u = doe
  have hk : doe / 146096 = 0 ∨ (doe / 146096 = 1 ∧ doe = 146096) := by omega
  have hi : doe / 36524 - doe / 146096 = b := by
    rcases hk with hk | ⟨hk, hd⟩
    · rw [hk]; omega
    · rw [hk, hd]; omega
  have hg : doe / 1460 = 25 * b + q ∨ (doe / 1460 = 25 * b + q + 1 ∧ 1 ≤ u) := by omega
  rcases hg with hg | ⟨hg, hu1⟩
  · have hu364 : u ≤ 364 := by omega
    have : doe - doe / 1460 + doe / 36524 - doe / 146096 = 365 * (100 * b + 4 * q + j) + u := by
      omega
    rw [this]
    omega
  · have : doe - doe / 1460 + doe / 36524 - doe / 146096 =
        365 * (100 * b + 4 * q + j) + (u - 1) := by
      omega
    rw [this]
    omega

theorem yoe_div_four (b q j : Int) (hj0 : 0 ≤ j) (hj : j ≤ 3) :
    (100 * b + 4 * q + j) / 4 = 25 * b + q := by omega

theorem yoe_div_hundred (b q j : Int) (hq0 : 0 ≤ q) (hq : q ≤ 24) (hj0 : 0 ≤ j) (hj : j ≤ 3) :
    (100 * b + 4 * q + j) / 100 = b := by omega

/-- The civil date of a day number given by its era and the parts of its day of
the era. -/
theorem civilFromDays_parts (era b q j u : Int) (hb0 : 0 ≤ b) (hb : b ≤ 3) (hq0 : 0 ≤ q)
    (hq : q ≤ 24) (hj0 : 0 ≤ j) (hj : j ≤ 3) (hu0 : 0 ≤ u) (hu : u ≤ 365)
    (hleap : u = 365 → j = 3 ∧ (q ≠ 24 ∨ b = 3)) :
    civilFromDays (146097 * era + (36524 * b + 1461 * q + 365 * j + u) - 719468) =
      (if (if (5 * u + 2) / 153 < 10 then (5 * u + 2) / 153 + 3 else (5 * u + 2) / 153 - 9) ≤ 2
        then 100 * b + 4 * q + j + era * 400 + 1 else 100 * b + 4 * q + j + era * 400,
       if (5 * u + 2) / 153 < 10 then (5 * u + 2) / 153 + 3 else (5 * u + 2) / 153 - 9,
       u - (153 * ((5 * u + 2) / 153) + 2) / 5 + 1) := by
  have hyoe := yoe_of_parts b q j u hb0 hb hq0 hq hj0 hj hu0 hu hleap
  revert hyoe
  have hd0 : 0 ≤ 36524 * b + 1461 * q + 365 * j + u := by omega
  have hd1 : 36524 * b + 1461 * q + 365 * j + u ≤ 146096 := by omega
  clear hleap
  have h3 : 36524 * b + 1461 * q + 365 * j + u - (365 * (100 * b + 4 * q + j)
      + (100 * b + 4 * q + j) / 4 - (100 * b + 4 * q + j) / 100) = u := by
    rw [yoe_div_four b q j hj0 hj, yoe_div_hundred b q j hq0 hq hj0 hj]
    ring_nf
  intro hyoe
  generalize 36524 * b + 1461 * q + 365 * j + u = doe at hyoe hd0 hd1 h3 ⊢
  have h1 : (146097 * era + doe - 719468 + 719468) / 146097 = era := by
    clear hyoe h3
    omega
  have h2 : (146097 * era + doe - 719468 + 719468) % 146097 = doe := by
    clear hyoe h3
    omega
  simp only [civilFromDays, h1, h2, hyoe, h3]

theorem isLeapYear_iff (y : Int) :
    isLeapYear y = true ↔ (y % 4 = 0 ∧ (y % 100 ≠ 0 ∨ y % 400 = 0)) := by
  simp [isLeapYear]

/-- The year after a year of the era given by its parts is a leap year exactly
when it closes a four-year cycle that is not the end of a century other than
the last of the era. -/
theorem isLeapYear_parts (era b q j : Int) (hb0 : 0 ≤ b) (hb : b ≤ 3) (hq0 : 0 ≤ q)
    (hq : q ≤ 24) (hj0 : 0 ≤ j) (hj : j ≤ 3) :
    isLeapYear (100 * b + 4 * q + j + era * 400 + 1) = true ↔ (j = 3 ∧ (q ≠ 24 ∨ b = 3)) := by
  rw [isLeapYear_iff]
  omega

theorem year_parts (y1 : Int) :
    ∃ era b q j : Int, 0 ≤ b ∧ b ≤ 3 ∧ 0 ≤ q ∧ q ≤ 24 ∧ 0 ≤ j ∧ j ≤ 3 ∧
      y1 = 100 * b + 4 * q + j + era * 400 :=
  ⟨y1 / 400, y1 % 400 / 100, y1 % 400 % 100 / 4, y1 % 400 % 4, by omega, by omega, by omega,
    by omega, by omega, by omega, by omega⟩

/-- The day number of a date in terms of the parts of its year counted from
March and of its day in that year. -/
theorem daysFromCivil_year_parts (y m d era b q j : Int)
    (hq0 : 0 ≤ q) (hq : q ≤ 24) (hj0 : 0 ≤ j) (hj : j ≤ 3) (hb0 : 0 ≤ b) (hb : b ≤ 3)
    (hy1 : (if m ≤ 2 then y - 1 else y) = 100 * b + 4 * q + j + era * 400) :
    daysFromCivil y m d = 146097 * era + (36524 * b + 1461 * q + 365 * j +
      ((153 * (if m > 2 then m - 3 else m + 9) + 2) / 5 + d - 1)) - 719468 := by
  have h4 := yoe_div_four b q j hj0 hj
  have h100 := yoe_div_hundred b q j hq0 hq hj0 hj
  have hera : (100 * b + 4 * q + j + era * 400) / 400 = era := by
    clear h4 h100 hy1
    omega
  have hyoe : (100 * b + 4 * q + j + era * 400) % 400 = 100 * b + 4 * q + j := by
    clear h4 h100 hy1
    omega
  unfold daysFromCivil
  simp only [hy1, hera, hyoe, h4, h100]
  ring_nf

/-- Round trip: the civil date of the day number of a date of the calendar is
that date. -/
theorem civilFromDays_daysFromCivil (y m d : Int) (hm1 : 1 ≤ m) (hm12 : m ≤ 12)
    (hd1 : 1 ≤ d) (hd : d ≤ daysInMonth y m) :
    civilFromDays (daysFromCivil y m d) = (y, m, d) := by
  obtain ⟨era, b, q, j, hb0, hb, hq0, hq, hj0, hj, hy1⟩ :=
    year_parts (if m ≤ 2 then y - 1 else y)
  have hlp := isLeapYear_parts era b q j hb0 hb hq0 hq hj0 hj
  rw [daysFromCivil_year_parts y m d era b q j hq0 hq hj0 hj hb0 hb hy1]
  by_cases hm2 : m ≤ 2
  · rw [if_pos hm2] at hy1
    have hy : y = 100 * b + 4 * q + j + era * 400 + 1 := by omega
    have hgt : ¬ (m > 2) := by omega
    rw [if_neg hgt]
    have hdim : d ≤ 31 ∧ (m = 2 → d ≤ 29 ∧ (d = 29 → j = 3 ∧ (q ≠ 24 ∨ b = 3))) := by
      unfold daysInMonth at hd
      by_cases h2 : m = 2
      · rw [if_pos h2] at hd
        by_cases hl : isLeapYear y = true
        · rw [if_pos hl] at hd
          rw [hy] at hl
          exact ⟨by omega, fun _ => ⟨hd, fun _ => hlp.mp hl⟩⟩
        · rw [if_neg hl] at hd
          exact ⟨by omega, fun _ => ⟨by omega, fun h29 => by omega⟩⟩
      · have h1 : m = 1 := by omega
        subst h1
        simp at hd
        exact ⟨hd, fun h => absurd h (by decide)⟩
    clear hd hlp
    obtain ⟨hd31, hfeb⟩ := hdim
    have hcases : m = 1 ∨ m = 2 := by omega
    rcases hcases with rfl | rfl
    · rw [civilFromDays_parts era b q j _ hb0 hb hq0 hq hj0 hj (by omega) (by omega) (by omega)]
      have hmp : (5 * ((153 * ((1 : Int) + 9) + 2) / 5 + d - 1) + 2) / 153 = 10 := by omega
      rw [hmp, hy]
      simp
      omega
    · obtain ⟨hd29, hl29⟩ := hfeb rfl
      rw [civilFromDays_parts era b q j _ hb0 hb hq0 hq hj0 hj (by omega) (by omega)
        (fun h => hl29 (by omega))]
      have hmp : (5 * ((153 * ((2 : Int) + 9) + 2) / 5 + d - 1) + 2) / 153 = 11 := by omega
      rw [hmp, hy]
      simp
      omega
  · rw [if_neg hm2] at hy1
    have hgt : m > 2 := by omega
    rw [if_pos hgt]
    have hdim : d ≤ 31 ∧ ((m = 4 ∨ m = 6 ∨ m = 9 ∨ m = 11) → d ≤ 30) := by
      unfold daysInMonth at hd
      have h2 : ¬ (m = 2) := by omega
      rw [if_neg h2] at hd
      by_cases h30 : m = 4 ∨ m = 6 ∨ m = 9 ∨ m = 11
      · rw [if_pos h30] at hd
        exact ⟨by omega, fun _ => hd⟩
      · rw [if_neg h30] at hd
        exact ⟨hd, fun h => absurd h h30⟩
    clear hd hlp
    obtain ⟨hd31, h30⟩ := hdim
    have hu0 : 0 ≤ (153 * (m - 3) + 2) / 5 + d - 1 := by omega
    have hu : (153 * (m - 3) + 2) / 5 + d - 1 ≤ 364 := by omega
    rw [civilFromDays_parts era b q j _ hb0 hb hq0 hq hj0 hj hu0 (by omega) (by omega)]
    have hmp : (5 * ((153 * (m - 3) + 2) / 5 + d - 1) + 2) / 153 = m - 3 := by
      clear hu0 hu hy1
      interval_cases m <;> omega
    rw [hmp, hy1]
    have hlt : m - 3 < 10 := by omega
    have hnot : ¬ (m - 3 + 3 ≤ 2) := by omega
    simp only [if_pos hlt, if_neg hnot]
    refine Prod.ext ?_ (Prod.ext ?_ ?_)
    · rfl
    · show m - 3 + 3 = m
      omega
    · show (153 * (m - 3) + 2) / 5 + d - 1 - (153 * (m - 3) + 2) / 5 + 1 = d
      omega

theorem toISODate_eq_isoDate (t : Int) :
    toISODate t = isoDate (YearFromTime t) (MonthFromTime t + 1) (DateFromTime t) := rfl

theorem Day_mul_msPerDay (n : Int) : Day (n * msPerDay) = n := by
  unfold Day msPerDay
  omega

theorem toISODate_days (n : Int) :
    toISODate (n * msPerDay) =
      isoDate (civilFromDays n).1 (civilFromDays n).2.1 (civilFromDays n).2.2 := by
  rw [toISODate_eq_isoDate]
  unfold YearFromTime MonthFromTime DateFromTime
  rw [Day_mul_msPerDay]
  congr 1
  omega

/-! ## The message for a payment due today (C11) -/

/-- The message of every reminder event for a payment due in 0 days. -/
theorem reminder_message_zero_days (tza : TimeZone) (now : Int) (subs : List Subscription)
    (ledger : List Reminder) (e : Notification) (he : e ∈ (sweep tza now subs ledger).1) :
    ∃ s ∈ subs, e.subscription = some s ∧
      (getDaysUntil tza now s.nextPayment = some 0 →
        e.message = s.name ++ " payment due in today") := by
  rw [sweep_events] at he
  obtain ⟨s, hs, rfl⟩ := List.mem_map.mp he
  refine ⟨s, ((mem_due_iff tza now subs ledger s).mp hs).1, rfl, ?_⟩
  intro hd
  simp only [newNotification, hd, if_true, String.append_assoc]
  exact congrArg (fun t => s.name ++ t) (by decide)

/-- C11 fails on the code: for a subscription due today the sweep emits the
message `Netflix payment due in today`, which is not `Netflix payment due
today`. -/
theorem reminder_message_today_evaluation :
    getDaysUntil utc sampleNow "2025-05-12" = some 0 ∧
      (sweep utc sampleNow [{ netflix with nextPayment := "2025-05-12" }] []).1
        = [{ message := "Netflix payment due in today", type := "warning",
             subscription := some { netflix with nextPayment := "2025-05-12" } }] ∧
      "Netflix payment due in today" ≠ netflix.name ++ " payment due today" := by
  decide

/-! ## Advancing the date (C12 to C14) -/

theorem advanceIfId_of_advance (tza : TimeZone) (sub : Subscription) (new : String)
    (h : advance tza sub.nextPayment sub.cycle = some new) :
    advanceIfId tza sub.id sub = some { sub with nextPayment := new } ∧
      updateNextPaymentDate tza sub.id (stateOf [sub] [])
        = some (stateOf [{ sub with nextPayment := new }] []) := by
  have h1 : advanceIfId tza sub.id sub = some { sub with nextPayment := new } := by
    unfold advanceIfId
    rw [if_pos rfl, h]
    rfl
  refine ⟨h1, ?_⟩
  simp [updateNextPaymentDate, stateOf, mapAdvance, h1]

/-- C12 fails on the code: in US Eastern time the monthly advance of 2025-12-01
is 2025-12-31, a day of the same month, where the claim gives 2026-01-01; and in
UTC the monthly advance of 2025-01-31 is 2025-03-03, a day of March, where the
claim gives the last day of February, the 28th. -/
theorem monthly_advance_evaluation :
    updateNextPaymentDate easternTime2025 1
        (stateOf [{ netflix with nextPayment := "2025-12-01" }] [])
      = some (stateOf [{ netflix with nextPayment := "2025-12-31" }] []) ∧
    updateNextPaymentDate utc 1 (stateOf [{ netflix with nextPayment := "2025-01-31" }] [])
      = some (stateOf [{ netflix with nextPayment := "2025-03-03" }] []) ∧
    netflix.cycle = "monthly" ∧
    parseDateOnly "2025-12-01" = some (2025, 12, 1) ∧
    parseDateOnly "2025-01-31" = some (2025, 1, 31) ∧
    min 31 (daysInMonth 2025 2) = 28 := by
  decide

/-- C13 fails on the code: in US Eastern time the weekly advance of 2025-03-08
is 2025-03-14, six days later, because daylight saving starts in between; in UTC
it is 2025-03-15. And the weekly advance of +275760-09-10, three days before the
last day a `Date` can hold, throws. -/
theorem weekly_advance_evaluation :
    updateNextPaymentDate easternTime2025 1
        (stateOf [{ netflix with cycle := "weekly", nextPayment := "2025-03-08" }] [])
      = some (stateOf [{ netflix with cycle := "weekly", nextPayment := "2025-03-14" }] []) ∧
    updateNextPaymentDate utc 1
        (stateOf [{ netflix with cycle := "weekly", nextPayment := "2025-03-08" }] [])
      = some (stateOf [{ netflix with cycle := "weekly", nextPayment := "2025-03-15" }] []) ∧
    daysFromCivil 2025 3 14 = daysFromCivil 2025 3 8 + 6 ∧
    parseDateOnly "+275760-09-10" = some (275760, 9, 10) ∧
    updateNextPaymentDate utc 1
        (stateOf [{ netflix with cycle := "weekly", nextPayment := "+275760-09-10" }] [])
      = none := by
  decide

/-- C14 fails on the code: five hours behind UTC, the yearly advance of
2024-03-01 is 2025-03-02, not 2025-03-01; in UTC it is 2025-03-01. -/
theorem yearly_advance_evaluation :
    updateNextPaymentDate (fixedZone (-18000000)) 1
        (stateOf [{ netflix with cycle := "yearly", nextPayment := "2024-03-01" }] [])
      = some (stateOf [{ netflix with cycle := "yearly", nextPayment := "2025-03-02" }] []) ∧
    updateNextPaymentDate utc 1
        (stateOf [{ netflix with cycle := "yearly", nextPayment := "2024-03-01" }] [])
      = some (stateOf [{ netflix with cycle := "yearly", nextPayment := "2025-03-01" }] []) ∧
    parseDateOnly "2024-03-01" = some (2024, 3, 1) := by
  decide

/-! ## Days until a date (C17) -/

/-- C17 fails on the code: five and a half hours ahead of UTC, at a moment of
the local day 2025-05-12, `getDaysUntil` returns 1 for that day, 0 for the day
before and 4 for the day three days later; in UTC it returns 0, -1 and 3. -/
theorem getDaysUntil_evaluation :
    toISODate (LocalTime (fixedZone 19800000) sampleNow) = "2025-05-12" ∧
      getDaysUntil (fixedZone 19800000) sampleNow "2025-05-12" = some 1 ∧
      getDaysUntil (fixedZone 19800000) sampleNow "2025-05-11" = some 0 ∧
      getDaysUntil (fixedZone 19800000) sampleNow "2025-05-15" = some 4 ∧
      getDaysUntil utc sampleNow "2025-05-12" = some 0 ∧
      getDaysUntil utc sampleNow "2025-05-11" = some (-1) ∧
      getDaysUntil utc sampleNow "2025-05-15" = some 3 := by
  decide

/-! ## Printing and reading back an ISO date -/

end SubsTracker
